import Mathlib

/-!
Shallow embedding of the resilience.js package: the retry engine of
src/retry.js, the deadline wrapper of src/deadline.js, the notifier of
src/helpers.js and the timeout/delay primitives of src/index.js.

Tasks are modelled as functions from the attempt index to a settled
outcome in `Except`; promise chains become explicit event traces; the
mutable JS arrays of the retry context are additionally modelled by a
reference-and-store heap to state the defensive-copy property.
-/

namespace Resilience

/-- Backoff type: the CONSTANT and EXPONENTIAL tags of src/retry.js. -/
inductive RetryType where
  | constant
  | exponential
deriving DecidableEq

/-- Default retry count of src/retry.js. -/
def DEFAULT_RETRIES : Nat := 1

/-- Default interval of src/retry.js, in milliseconds. -/
def DEFAULT_INTERVAL : Nat := 1000

/-- Model of the JS idiom `x || d` on a numeric argument: 0 (and an absent
    argument, also encoded by 0 here) is falsy and replaced by the default. -/
def orDefault (x d : Nat) : Nat := if x = 0 then d else x

/-- Source: createConstantIntervals in src/retry.js. The loop pushes
    `interval` once per iteration, `retries` many times. -/
def createConstantIntervals : Nat → Nat → List Nat
  | 0, _ => []
  | n + 1, interval => interval :: createConstantIntervals n interval

/-- Source: createExponentialIntervals in src/retry.js. The loop pushes
    `next` (starting at `interval`) and doubles it after every push. -/
def createExponentialIntervals : Nat → Nat → List Nat
  | 0, _ => []
  | n + 1, next => next :: createExponentialIntervals n (next * 2)

/-- Retry context of src/retry.js: `retries` holds the [done, max] pair and
    `intervals` the pending backoff schedule. -/
structure Context where
  retries : Nat × Nat
  intervals : List Nat
deriving DecidableEq

/-- Interval schedule selection done by createContext in src/retry.js. -/
def createIntervals : RetryType → Nat → Nat → List Nat
  | RetryType.constant, r, i => createConstantIntervals r i
  | RetryType.exponential, r, i => createExponentialIntervals r i

/-- Source: createContext in src/retry.js. -/
def createContext (type : RetryType) (retries interval : Nat) : Context :=
  { retries := (0, retries), intervals := createIntervals type retries interval }

/-- Source: cloneContext in src/retry.js, which copies both arrays with
    slice(0). On the pure value level the copy is the value itself; the
    freshness of the copied arrays is modelled separately by the heap-level
    cloneContextH below. -/
def cloneContext (ctx : Context) : Context :=
  { retries := ctx.retries, intervals := ctx.intervals }

/-- Observable events of one retry sequence, listed in temporal order by the
    engine model: a task invocation carrying its attempt index, the elapsing
    of a backoff delay, and an observer notification carrying the cloned
    context and the failure value. -/
inductive REvent (ε : Type) where
  | run (attempt : Nat)
  | delay (ms : Nat)
  | notify (ctx : Context) (err : ε)
deriving DecidableEq

variable {ε α : Type}

/-- Source: handle in src/retry.js. Arguments are the fuel (the explicit
    termination measure, always called with `maxr - done`, so that fuel 0
    and the exhaustion guard coincide), the [done, max] counters, the
    pending intervals and the current failure. On a retry the engine
    increments done, clones the context, shifts the front interval, waits
    for it, notifies the observer and re-invokes the task; at exhaustion it
    propagates the failure unchanged. -/
def handle (task : Nat → Except ε α) :
    Nat → Nat → Nat → List Nat → ε → List (REvent ε) × Except ε α
  | 0, _, _, _, err => ([], Except.error err)
  | fuel + 1, maxr, done, intervals, err =>
    if done < maxr then
      let ctxClone := cloneContext { retries := (done + 1, maxr), intervals := intervals }
      let d := intervals.headD 0
      let evs := [REvent.delay d, REvent.notify ctxClone err, REvent.run (done + 1)]
      match task (done + 1) with
      | Except.ok v => (evs, Except.ok v)
      | Except.error e =>
        let rest := handle task fuel maxr (done + 1) intervals.tail e
        (evs ++ rest.1, rest.2)
    else ([], Except.error err)

/-- Source: retry in src/retry.js. Falsy `retries` and `interval` arguments
    are replaced by the defaults through the `||` idiom, the context with
    its schedule is built, the task is attempted once (run event 0), and a
    failure of the initial attempt is handed to `handle`. -/
def retry (type : RetryType) (task : Nat → Except ε α) (retries interval : Nat) :
    List (REvent ε) × Except ε α :=
  let r := orDefault retries DEFAULT_RETRIES
  let i := orDefault interval DEFAULT_INTERVAL
  let ctx := createContext type r i
  match task 0 with
  | Except.ok v => ([REvent.run 0], Except.ok v)
  | Except.error e =>
    let rest := handle task ctx.retries.2 ctx.retries.2 ctx.retries.1 ctx.intervals e
    (REvent.run 0 :: rest.1, rest.2)

/-- Source: constantRetry in src/retry.js. -/
def constantRetry (task : Nat → Except ε α) (retries interval : Nat) :
    List (REvent ε) × Except ε α :=
  retry RetryType.constant task retries interval

/-- Source: exponentialRetry in src/retry.js. -/
def exponentialRetry (task : Nat → Except ε α) (retries interval : Nat) :
    List (REvent ε) × Except ε α :=
  retry RetryType.exponential task retries interval

/-- Event classifier: task invocation events. -/
def isRun : REvent ε → Bool
  | REvent.run _ => true
  | _ => false

/-- Event classifier: observer notification events. -/
def isNotify : REvent ε → Bool
  | REvent.notify _ _ => true
  | _ => false

/-- Event classifier: backoff delay events. -/
def isDelay : REvent ε → Bool
  | REvent.delay _ => true
  | _ => false

/-- Number of task invocations recorded in a trace. -/
def runCount (tr : List (REvent ε)) : Nat := tr.countP isRun

/-- Number of observer notifications recorded in a trace. -/
def notifyCount (tr : List (REvent ε)) : Nat := tr.countP isNotify

/-- The context snapshots handed to the observer, in order. -/
def notifyContexts : List (REvent ε) → List Context
  | [] => []
  | REvent.notify c _ :: rest => c :: notifyContexts rest
  | _ :: rest => notifyContexts rest

/-- Index of the first notification event in a trace. -/
def firstNotifyIdx (tr : List (REvent ε)) : Nat := tr.findIdx isNotify

/-- Index of the first delay event in a trace. -/
def firstDelayIdx (tr : List (REvent ε)) : Nat := tr.findIdx isDelay

/-- Checks that a trace is a sequence of retry blocks, each of the exact
    temporal shape: delay elapses, then the observer is notified, then the
    task is re-invoked. -/
def blocksOrdered : List (REvent ε) → Bool
  | [] => true
  | REvent.delay _ :: REvent.notify _ _ :: REvent.run _ :: rest => blocksOrdered rest
  | _ => false

/-- Checks that a full retry trace is an initial task invocation followed by
    well-ordered retry blocks. -/
def traceOrdered : List (REvent ε) → Bool
  | REvent.run _ :: rest => blocksOrdered rest
  | _ => false

/-- Checks every retry block of a trace: the notified context still holds
    the interval being consumed at the front of its intervals, and its done
    counter is already incremented, matching the attempt index of the task
    re-invocation that follows. -/
def snapshotsOk : List (REvent ε) → Bool
  | REvent.delay d :: REvent.notify c _ :: REvent.run k :: rest =>
    (c.intervals.headD 0 == d) && (c.retries.1 == k) && snapshotsOk rest
  | _ :: rest => snapshotsOk rest
  | [] => true

/-- Possible behaviours of invoking a zero-argument JS task: return a value,
    return a rejected promise, or throw synchronously. -/
inductive RunOutcome (ε α : Type) where
  | ok (v : α)
  | reject (e : ε)
  | sthrow (e : ε)
deriving DecidableEq

/-- Model of `new Promise(resolve => resolve(run()))` in src/retry.js and
    src/deadline.js: a synchronous throw inside the executor rejects the
    promise, which makes it indistinguishable from an asynchronous
    rejection from then on. -/
def resolveRun : RunOutcome ε α → Except ε α
  | RunOutcome.ok v => Except.ok v
  | RunOutcome.reject e => Except.error e
  | RunOutcome.sthrow e => Except.error e

/-- Replaces a synchronous throw by an asynchronous rejection carrying the
    same failure value, leaving the other behaviours untouched. -/
def deThrow : RunOutcome ε α → RunOutcome ε α
  | RunOutcome.sthrow e => RunOutcome.reject e
  | o => o

/-- Source: deadline and handle in src/deadline.js together with timeout in
    src/index.js. `tErr` is the shared TimeoutError sentinel; the task is
    modelled by its settling time and its outcome. When `ms` is falsy no
    timing is applied. Otherwise `Promise.race` is won by the task exactly
    when it settles strictly before the timer; on a raced failure the catch
    handler notifies the observer with `ms` whenever the failure value is
    identical to the sentinel, then re-rejects the same failure. The first
    component lists the observer notifications. -/
def deadlineRun [DecidableEq ε] (tErr : ε) (time : Nat) (outcome : RunOutcome ε α)
    (ms : Nat) : List Nat × Except ε α :=
  let promise := resolveRun outcome
  if ms = 0 then ([], promise)
  else
    let raced := if time < ms then promise else Except.error tErr
    match raced with
    | Except.ok v => ([], Except.ok v)
    | Except.error e => (if e = tErr then [ms] else [], Except.error e)

/-- Argument handed to the notify registration method: either a function
    value or some non-function JS value. -/
inductive JsArg (F : Type) where
  | func (f : F)
  | nonFunc

/-- Source: createNotifier in src/helpers.js, method set. The observer slot
    starts as a noop (none). Given the current slot, the promise `this` it
    is attached to and the argument, a non-function argument throws before
    the slot assignment, so the slot is returned unchanged alongside the
    error; a function argument replaces the slot and the same promise value
    is returned for chaining. -/
def notifierSet {F P : Type} (slot : Option F) (p : P) (arg : JsArg F) :
    Option F × Except String P :=
  match arg with
  | JsArg.nonFunc => (slot, Except.error "Expected `notify` to be a function.")
  | JsArg.func f => (some f, Except.ok p)

/-!
Reference-and-store model of the mutable retry context. JS arrays are
mutable cells reachable through references; slice(0) allocates a fresh
cell holding a copy; an observer may overwrite any cell it holds a
reference to. This is the level at which the defensive-copy design of
cloneContext is a real statement.
-/

/-- Reference to a mutable array cell. -/
abbrev Ref := Nat

/-- Store of array cells; a cell holds a list of numbers. -/
abbrev Store := List (List Nat)

/-- Reads a cell; a dangling reference reads as the empty array. -/
def readRef (s : Store) (r : Ref) : List Nat := s.getD r []

/-- Overwrites a cell in place. -/
def writeRef (s : Store) (r : Ref) (v : List Nat) : Store := s.set r v

/-- Allocates a fresh cell and returns its reference. -/
def allocRef (s : Store) (v : List Nat) : Store × Ref := (s ++ [v], s.length)

/-- Heap-level retry context: references to the two mutable arrays. -/
structure CtxRefs where
  retriesRef : Ref
  intervalsRef : Ref

/-- Heap-level cloneContext of src/retry.js: slice(0) of each array
    allocates a fresh cell holding a copy of the current contents. -/
def cloneContextH (s : Store) (c : CtxRefs) : Store × CtxRefs :=
  let a := allocRef s (readRef s c.retriesRef)
  let b := allocRef a.1 (readRef a.1 c.intervalsRef)
  (b.1, { retriesRef := a.2, intervalsRef := b.2 })

/-- One observer snapshot: the contents of the two cloned cells at the
    moment the clone is handed over. -/
abbrev Snap := List Nat × List Nat

/-- Observer behaviour: given the retry step index, the store it runs in and
    the clone references it received, the final contents it leaves in the
    two cells it can reach. This covers any sequence of reads and writes
    the callback can perform through the references handed to it. -/
abbrev Observer := Nat → Store → CtxRefs → List Nat × List Nat

/-- Heap-level handle of src/retry.js: reads the [done, max] counters from
    the store, increments done in place, clones the context, shifts the
    consumed interval off the intervals cell, lets the observer mutate the
    cells it received, then re-invokes the task. Returns the snapshots
    handed to the observer and the settled result. -/
def handleH (task : Nat → Except ε α) (obs : Observer) :
    Nat → Store → CtxRefs → ε → List Snap × Except ε α
  | 0, _, _, err => ([], Except.error err)
  | fuel + 1, s, c, err =>
    let rets := readRef s c.retriesRef
    let done := rets.getD 0 0
    let maxr := rets.getD 1 0
    if done < maxr then
      let s1 := writeRef s c.retriesRef (rets.set 0 (done + 1))
      let cl := cloneContextH s1 c
      let snap : Snap := (readRef cl.1 cl.2.retriesRef, readRef cl.1 cl.2.intervalsRef)
      let ivs := readRef cl.1 c.intervalsRef
      let s3 := writeRef cl.1 c.intervalsRef ivs.tail
      let w := obs done s3 cl.2
      let s4 := writeRef (writeRef s3 cl.2.retriesRef w.1) cl.2.intervalsRef w.2
      match task (done + 1) with
      | Except.ok v => ([snap], Except.ok v)
      | Except.error e =>
        let rest := handleH task obs fuel s4 c e
        (snap :: rest.1, rest.2)
    else ([], Except.error err)

/-- Heap-level retry of src/retry.js: allocates the two context cells,
    attempts the task once and hands failures to handleH with the observer
    installed through the notifier. -/
def retryH (obs : Observer) (type : RetryType) (task : Nat → Except ε α)
    (retries interval : Nat) : List Snap × Except ε α :=
  let r := orDefault retries DEFAULT_RETRIES
  let i := orDefault interval DEFAULT_INTERVAL
  let a := allocRef [] [0, r]
  let b := allocRef a.1 (createIntervals type r i)
  match task 0 with
  | Except.ok v => ([], Except.ok v)
  | Except.error e =>
    handleH task obs r b.1 { retriesRef := a.2, intervalsRef := b.2 } e

/-- Pure reference behaviour of the heap-level handle: the same computation
    carried out directly on the cell contents, independent of any observer. -/
def handleSpec (task : Nat → Except ε α) :
    Nat → List Nat → List Nat → ε → List Snap × Except ε α
  | 0, _, _, err => ([], Except.error err)
  | fuel + 1, rets, ivs, err =>
    let done := rets.getD 0 0
    let maxr := rets.getD 1 0
    if done < maxr then
      let rets' := rets.set 0 (done + 1)
      let snap : Snap := (rets', ivs)
      match task (done + 1) with
      | Except.ok v => ([snap], Except.ok v)
      | Except.error e =>
        let rest := handleSpec task fuel rets' ivs.tail e
        (snap :: rest.1, rest.2)
    else ([], Except.error err)

/-! Schedule construction lemmas. -/

theorem createConstantIntervals_length (r i : Nat) :
    (createConstantIntervals r i).length = r := by
  induction r with
  | zero => rfl
  | succ n ih => simp [createConstantIntervals, ih]

theorem mem_createConstantIntervals (r i : Nat) :
    ∀ x ∈ createConstantIntervals r i, x = i := by
  induction r with
  | zero => intro x hx; cases hx
  | succ n ih =>
    intro x hx
    cases hx with
    | head => rfl
    | tail _ h => exact ih x h

theorem createExponentialIntervals_length :
    ∀ r i : Nat, (createExponentialIntervals r i).length = r := by
  intro r
  induction r with
  | zero => intro i; rfl
  | succ n ih => intro i; simp [createExponentialIntervals, ih]

theorem createExponentialIntervals_getD :
    ∀ (r i k : Nat), k < r → (createExponentialIntervals r i).getD k 0 = i * 2 ^ k := by
  intro r
  induction r with
  | zero => intro i k hk; omega
  | succ n ih =>
    intro i k hk
    cases k with
    | zero => simp [createExponentialIntervals]
    | succ m =>
      have h := ih (i * 2) m (by omega)
      simp only [createExponentialIntervals, List.getD_cons_succ]
      rw [h, pow_succ]
      ring

/-- Claim C7: for retries r with 1 ≤ r and any interval i, the constant
    schedule has length r with every element equal to i, and the
    exponential schedule has length r with 0-indexed element k equal to
    i * 2 ^ k. -/
theorem schedule_shape (r i : Nat) (hr : 1 ≤ r) :
    (createConstantIntervals r i).length = r ∧
    (∀ x ∈ createConstantIntervals r i, x = i) ∧
    (createExponentialIntervals r i).length = r ∧
    (∀ k, k < r → (createExponentialIntervals r i).getD k 0 = i * 2 ^ k) := by
  refine ⟨createConstantIntervals_length r i, mem_createConstantIntervals r i,
    createExponentialIntervals_length r i, ?_⟩
  intro k hk
  exact createExponentialIntervals_getD r i k hk

/-- Witness for claim C7 at retries 3 and interval 10. -/
theorem schedule_shape_witness :
    1 ≤ 3 ∧
    ((createConstantIntervals 3 10).length = 3 ∧
      (∀ x ∈ createConstantIntervals 3 10, x = 10) ∧
      (createExponentialIntervals 3 10).length = 3 ∧
      (∀ k, k < 3 → (createExponentialIntervals 3 10).getD k 0 = 10 * 2 ^ k)) :=
  ⟨by decide, schedule_shape 3 10 (by decide)⟩

/-- Claim C8: registering an observer stores the function in the slot and
    returns the very promise the setter is attached to; a non-function
    argument makes the setter throw while the previously stored slot is
    left unchanged. -/
theorem notifier_set_contract {F P : Type} (slot : Option F) (p : P) :
    (∀ f, notifierSet slot p (JsArg.func f) = (some f, Except.ok p)) ∧
    (notifierSet slot p JsArg.nonFunc).1 = slot ∧
    (notifierSet slot p JsArg.nonFunc).2 =
      Except.error "Expected `notify` to be a function." :=
  ⟨fun _ => rfl, rfl, rfl⟩

/-- Claim C10: a task throwing synchronously is handled by the retry engine
    and the deadline wrapper exactly like a task rejecting asynchronously
    with the same failure value, because the promise executor turns the
    throw into a rejection. -/
theorem sync_throw_as_rejection {ε α : Type} [DecidableEq ε] (type : RetryType)
    (task : Nat → RunOutcome ε α) (retries interval : Nat)
    (tErr : ε) (time ms : Nat) (e : ε) :
    retry type (fun n => resolveRun (task n)) retries interval =
      retry type (fun n => resolveRun (deThrow (task n))) retries interval ∧
    deadlineRun tErr time (RunOutcome.sthrow e : RunOutcome ε α) ms =
      deadlineRun tErr time (RunOutcome.reject e) ms := by
  constructor
  · have h : (fun n => resolveRun (task n)) =
        (fun n => resolveRun (deThrow (task n))) := by
      funext n
      cases task n <;> rfl
    rw [h]
  · rfl

/-! Deadline wrapper: notification happens exactly on a raced failure that
    is identical to the shared sentinel. -/

theorem deadlineRun_pos {ε α : Type} [DecidableEq ε] (tErr : ε) (time : Nat)
    (o : RunOutcome ε α) (ms : Nat) (h : ¬ ms = 0) :
    deadlineRun tErr time o ms =
      match (if time < ms then resolveRun o else Except.error tErr) with
      | Except.ok v => ([], Except.ok v)
      | Except.error e => (if e = tErr then [ms] else [], Except.error e) := by
  simp only [deadlineRun, if_neg h]

/-- Claim C3 counterexample: a task that settles at time 1, well before the
    5 ms timer, but rejects with the shared sentinel value itself, still
    triggers the observer; the claim demands zero notifications here. -/
theorem deadline_sentinel_rejection_notifies :
    (deadlineRun (0 : Nat) 1 (RunOutcome.reject 0 : RunOutcome Nat Nat) 5).1 = [5] ∧
    ¬ (deadlineRun (0 : Nat) 1 (RunOutcome.reject 0 : RunOutcome Nat Nat) 5).1 = [] := by
  decide

/-- Claim C3 (amended): for ms > 0, a task that settles first has its
    outcome forwarded unchanged; the observer stays silent exactly when
    that early outcome is a success or a failure not identical to the
    TimeoutError sentinel, and fires with argument ms when the settled
    failure is identical to the sentinel, whether from a true timeout or
    from the task rejecting with the sentinel itself; in every case there
    is at most one notification. -/
theorem deadline_notification_amended {ε α : Type} [DecidableEq ε] (tErr : ε)
    (time : Nat) (o : RunOutcome ε α) (ms : Nat) (hms : 0 < ms) :
    (time < ms → (deadlineRun tErr time o ms).2 = resolveRun o) ∧
    (time < ms → ¬ resolveRun o = Except.error tErr →
      (deadlineRun tErr time o ms).1 = []) ∧
    (time < ms → resolveRun o = Except.error tErr →
      (deadlineRun tErr time o ms).1 = [ms]) ∧
    (ms ≤ time → (deadlineRun tErr time o ms).1 = [ms] ∧
      (deadlineRun tErr time o ms).2 = Except.error tErr) ∧
    (deadlineRun tErr time o ms).1.length ≤ 1 := by
  have hne : ¬ ms = 0 := by omega
  rw [deadlineRun_pos tErr time o ms hne]
  refine ⟨?_, ?_, ?_, ?_, ?_⟩
  · intro ht
    rw [if_pos ht]
    cases hro : resolveRun o with
    | ok v => simp
    | error e => by_cases he : e = tErr <;> simp [he]
  · intro ht hno
    rw [if_pos ht]
    cases hro : resolveRun o with
    | ok v => simp
    | error e =>
      have he : ¬ e = tErr := fun h => hno (by rw [hro, h])
      simp [he]
  · intro ht hyes
    rw [if_pos ht, hyes]
    simp
  · intro ht
    have : ¬ time < ms := by omega
    rw [if_neg this]
    simp
  · by_cases ht : time < ms
    · rw [if_pos ht]
      cases resolveRun o with
      | ok v => simp
      | error e => by_cases he : e = tErr <;> simp [he]
    · rw [if_neg ht]
      simp

/-- Witness for the amended claim C3 at sentinel 0, settling time 2, an
    ordinary rejection with value 1, and a 5 ms deadline. -/
theorem deadline_notification_amended_witness :
    0 < 5 ∧
    ((2 < 5 → (deadlineRun (0 : Nat) 2 (RunOutcome.reject 1 : RunOutcome Nat Nat) 5).2 =
        resolveRun (RunOutcome.reject 1 : RunOutcome Nat Nat)) ∧
      (2 < 5 → ¬ resolveRun (RunOutcome.reject 1 : RunOutcome Nat Nat) =
          Except.error 0 →
        (deadlineRun (0 : Nat) 2 (RunOutcome.reject 1 : RunOutcome Nat Nat) 5).1 = []) ∧
      (2 < 5 → resolveRun (RunOutcome.reject 1 : RunOutcome Nat Nat) = Except.error 0 →
        (deadlineRun (0 : Nat) 2 (RunOutcome.reject 1 : RunOutcome Nat Nat) 5).1 = [5]) ∧
      (5 ≤ 2 → (deadlineRun (0 : Nat) 2 (RunOutcome.reject 1 : RunOutcome Nat Nat) 5).1 = [5] ∧
        (deadlineRun (0 : Nat) 2 (RunOutcome.reject 1 : RunOutcome Nat Nat) 5).2 =
          Except.error 0) ∧
      (deadlineRun (0 : Nat) 2 (RunOutcome.reject 1 : RunOutcome Nat Nat) 5).1.length ≤ 1) :=
  ⟨by decide, deadline_notification_amended 0 2 (RunOutcome.reject 1) 5 (by decide)⟩

/-! Structural lemmas about the retry trace. -/

theorem blocksOrdered_handle {ε α : Type} (task : Nat → Except ε α) :
    ∀ (fuel maxr done : Nat) (ivs : List Nat) (err : ε),
    blocksOrdered (handle task fuel maxr done ivs err).1 = true := by
  intro fuel
  induction fuel with
  | zero => intro maxr done ivs err; rfl
  | succ n ih =>
    intro maxr done ivs err
    by_cases h : done < maxr
    · cases htask : task (done + 1) with
      | ok v => simp [handle, h, htask, blocksOrdered]
      | error e => simp [handle, h, htask, blocksOrdered, ih]
    · simp [handle, h, blocksOrdered]

theorem snapshotsOk_handle {ε α : Type} (task : Nat → Except ε α) :
    ∀ (fuel maxr done : Nat) (ivs : List Nat) (err : ε),
    snapshotsOk (handle task fuel maxr done ivs err).1 = true := by
  intro fuel
  induction fuel with
  | zero => intro maxr done ivs err; rfl
  | succ n ih =>
    intro maxr done ivs err
    by_cases h : done < maxr
    · cases htask : task (done + 1) with
      | ok v => simp [handle, h, htask, snapshotsOk, cloneContext]
      | error e => simp [handle, h, htask, snapshotsOk, cloneContext, ih]
    · simp [handle, h, snapshotsOk]

theorem counts_handle {ε α : Type} (task : Nat → Except ε α) :
    ∀ (fuel maxr done : Nat) (ivs : List Nat) (err : ε),
    runCount (handle task fuel maxr done ivs err).1 =
      notifyCount (handle task fuel maxr done ivs err).1 ∧
    notifyCount (handle task fuel maxr done ivs err).1 ≤ fuel := by
  intro fuel
  induction fuel with
  | zero => intro maxr done ivs err; exact ⟨rfl, Nat.le_refl 0⟩
  | succ n ih =>
    intro maxr done ivs err
    by_cases h : done < maxr
    · cases htask : task (done + 1) with
      | ok v =>
        refine ⟨?_, ?_⟩ <;>
          simp [handle, h, htask, runCount, notifyCount, List.countP_cons,
            List.countP_nil, isRun, isNotify]
      | error e =>
        obtain ⟨h1, h2⟩ := ih maxr (done + 1) ivs.tail e
        simp only [runCount, notifyCount] at h1 h2
        refine ⟨?_, ?_⟩ <;>
          · simp [handle, h, htask, runCount, notifyCount, List.countP_append,
              List.countP_cons, List.countP_nil, isRun, isNotify]
            omega
    · refine ⟨?_, ?_⟩ <;>
        simp [handle, h, runCount, notifyCount, List.countP_nil]

theorem handle_all_fail {ε α : Type} (errs : Nat → ε) :
    ∀ (fuel maxr done : Nat) (ivs : List Nat), done ≤ maxr → fuel = maxr - done →
    (handle ((fun n => Except.error (errs n)) : Nat → Except ε α)
        fuel maxr done ivs (errs done)).2 = Except.error (errs maxr) := by
  intro fuel
  induction fuel with
  | zero =>
    intro maxr done ivs hle hf
    have hdone : done = maxr := by omega
    subst hdone
    rfl
  | succ n ih =>
    intro maxr done ivs hle hf
    have h : done < maxr := by omega
    have ihc := ih maxr (done + 1) ivs.tail (by omega) (by omega)
    simp [handle, h] at ihc ⊢
    exact ihc

/-- Shape of the result of retry when the initial attempt succeeds. -/
theorem retry_trace_ok {ε α : Type} (type : RetryType) (task : Nat → Except ε α)
    (retries interval : Nat) (v : α) (htask : task 0 = Except.ok v) :
    retry type task retries interval = ([REvent.run 0], Except.ok v) := by
  simp [retry, htask]

/-- Shape of the result of retry when the initial attempt fails. -/
theorem retry_trace_err {ε α : Type} (type : RetryType) (task : Nat → Except ε α)
    (retries interval : Nat) (e : ε) (htask : task 0 = Except.error e) :
    retry type task retries interval =
      (REvent.run 0 ::
        (handle task (orDefault retries DEFAULT_RETRIES)
          (orDefault retries DEFAULT_RETRIES) 0
          (createIntervals type (orDefault retries DEFAULT_RETRIES)
            (orDefault interval DEFAULT_INTERVAL)) e).1,
        (handle task (orDefault retries DEFAULT_RETRIES)
          (orDefault retries DEFAULT_RETRIES) 0
          (createIntervals type (orDefault retries DEFAULT_RETRIES)
            (orDefault interval DEFAULT_INTERVAL)) e).2) := by
  simp [retry, htask, createContext]

theorem retry_counts {ε α : Type} (type : RetryType) (task : Nat → Except ε α)
    (retries interval : Nat) :
    runCount (retry type task retries interval).1 =
      1 + notifyCount (retry type task retries interval).1 ∧
    notifyCount (retry type task retries interval).1 ≤
      orDefault retries DEFAULT_RETRIES := by
  cases htask : task 0 with
  | ok v =>
    rw [retry_trace_ok type task retries interval v htask]
    simp [runCount, notifyCount, List.countP_cons, List.countP_nil, isRun, isNotify]
  | error e =>
    rw [retry_trace_err type task retries interval e htask]
    obtain ⟨h1, h2⟩ := counts_handle task (orDefault retries DEFAULT_RETRIES)
      (orDefault retries DEFAULT_RETRIES) 0
      (createIntervals type (orDefault retries DEFAULT_RETRIES)
        (orDefault interval DEFAULT_INTERVAL)) e
    simp only [runCount, notifyCount] at h1 h2 ⊢
    simp [List.countP_cons, isRun, isNotify]
    omega

/-- Claim C1 counterexample: one constant retry with interval 5 against an
    always failing task. The delay event for retry attempt 1 comes at index
    1 of the trace while the notification comes at index 2, so the observer
    is invoked after the delay has elapsed, not before the delay begins as
    the claim states. -/
theorem retry_notify_before_delay_false :
    (constantRetry ((fun _ => Except.error 0) : Nat → Except Nat Nat) 1 5).1 =
      [REvent.run 0, REvent.delay 5,
        REvent.notify { retries := (1, 1), intervals := [5] } 0, REvent.run 1] ∧
    firstDelayIdx (constantRetry ((fun _ => Except.error 0) : Nat → Except Nat Nat) 1 5).1 <
      firstNotifyIdx (constantRetry ((fun _ => Except.error 0) : Nat → Except Nat Nat) 1 5).1 ∧
    ¬ (firstNotifyIdx (constantRetry ((fun _ => Except.error 0) : Nat → Except Nat Nat) 1 5).1 <
      firstDelayIdx (constantRetry ((fun _ => Except.error 0) : Nat → Except Nat Nat) 1 5).1) := by
  decide

/-- Claim C1 (amended): for every retry sequence, the trace is the initial
    task invocation followed by blocks in which the backoff delay for
    attempt N elapses first, then the observer is invoked with the cloned
    context and the failure, and only then is the task re-invoked. -/
theorem retry_observer_after_delay {ε α : Type} (type : RetryType)
    (task : Nat → Except ε α) (retries interval : Nat) :
    traceOrdered (retry type task retries interval).1 = true := by
  cases htask : task 0 with
  | ok v =>
    rw [retry_trace_ok type task retries interval v htask]
    rfl
  | error e =>
    rw [retry_trace_err type task retries interval e htask]
    exact blocksOrdered_handle task _ _ _ _ _

/-- Claim C2 counterexample: constantRetry with retries 0 and interval 5
    against an always failing task. The trace shows the task invoked twice
    and the observer invoked once, and the schedule holds one interval; the
    claim demands a single invocation, an empty schedule and a silent
    observer. -/
theorem retry_zero_retries_once_false :
    (constantRetry ((fun _ => Except.error 0) : Nat → Except Nat Nat) 0 5).1 =
      [REvent.run 0, REvent.delay 5,
        REvent.notify { retries := (1, 1), intervals := [5] } 0, REvent.run 1] ∧
    ¬ runCount (constantRetry ((fun _ => Except.error 0) : Nat → Except Nat Nat) 0 5).1 = 1 ∧
    ¬ notifyCount (constantRetry ((fun _ => Except.error 0) : Nat → Except Nat Nat) 0 5).1 = 0 ∧
    ¬ createIntervals RetryType.constant
        (orDefault 0 DEFAULT_RETRIES) (orDefault 5 DEFAULT_INTERVAL) = [] := by
  decide

/-- Claim C2 (amended): retries 0 is a falsy argument and is replaced by the
    default of one retry, so a call with retries 0 behaves exactly like a
    call with retries 1: the schedule has one element, the task is invoked
    at most twice, and the observer is invoked at most once. -/
theorem retry_zero_retries_amended {ε α : Type} (type : RetryType)
    (task : Nat → Except ε α) (interval : Nat) :
    retry type task 0 interval = retry type task 1 interval ∧
    (createIntervals type (orDefault 0 DEFAULT_RETRIES)
        (orDefault interval DEFAULT_INTERVAL)).length = 1 ∧
    runCount (retry type task 0 interval).1 ≤ 2 ∧
    notifyCount (retry type task 0 interval).1 ≤ 1 := by
  have hd : orDefault 0 DEFAULT_RETRIES = 1 := rfl
  obtain ⟨h1, h2⟩ := retry_counts type task 0 interval
  rw [hd] at h2
  refine ⟨rfl, ?_, by omega, h2⟩
  cases type with
  | constant =>
    rw [hd]
    rfl
  | exponential =>
    rw [hd]
    rfl

/-- Claim C4: in every retry block the context snapshot handed to the
    observer has its done counter already incremented to the attempt index
    of the following re-invocation while the interval being consumed is
    still at the front of its intervals; concretely, constantRetry with
    retries 3 and interval 1000 against an always failing task notifies
    with contexts (1,3) [1000,1000,1000], then (2,3) [1000,1000], then
    (3,3) [1000], in this order. -/
theorem retry_snapshot_shape :
    (∀ (ε α : Type) (type : RetryType) (task : Nat → Except ε α)
        (retries interval : Nat),
      snapshotsOk (retry type task retries interval).1 = true) ∧
    notifyContexts
        (constantRetry ((fun _ => Except.error 0) : Nat → Except Nat Nat) 3 1000).1 =
      [{ retries := (1, 3), intervals := [1000, 1000, 1000] },
        { retries := (2, 3), intervals := [1000, 1000] },
        { retries := (3, 3), intervals := [1000] }] := by
  constructor
  · intro ε α type task retries interval
    cases htask : task 0 with
    | ok v =>
      rw [retry_trace_ok type task retries interval v htask]
      rfl
    | error e =>
      rw [retry_trace_err type task retries interval e htask]
      exact snapshotsOk_handle task _ _ _ _ _
  · decide

/-- Claim C5 counterexample: with retries 0 and an always failing task the
    engine performs 2 task invocations, exceeding the claimed bound of
    1 + retries = 1. -/
theorem retry_zero_retries_bound_false :
    runCount (constantRetry ((fun _ => Except.error 0) : Nat → Except Nat Nat) 0 5).1 = 2 ∧
    ¬ runCount (constantRetry ((fun _ => Except.error 0) : Nat → Except Nat Nat) 0 5).1 ≤
      1 + 0 := by
  decide

/-- Claim C5 (amended): in every retry trace the observer is invoked exactly
    once per retry attempt performed, never for the initial attempt and
    never after exhaustion, so the number of task invocations is 1 plus the
    number of notifications; that total is bounded by 1 plus the effective
    retry count, which is the retries parameter when it is nonzero and the
    default of 1 when the parameter is 0. -/
theorem retry_invocation_accounting {ε α : Type} (type : RetryType)
    (task : Nat → Except ε α) (retries interval : Nat) :
    runCount (retry type task retries interval).1 =
      1 + notifyCount (retry type task retries interval).1 ∧
    runCount (retry type task retries interval).1 ≤
      1 + orDefault retries DEFAULT_RETRIES := by
  obtain ⟨h1, h2⟩ := retry_counts type task retries interval
  exact ⟨h1, by omega⟩

/-- Claim C6: when the task fails on every attempt, the engine settles with
    exactly the failure value the task produced at its final attempt, the
    attempt whose index is the effective retry count, with no wrapping or
    substitution. -/
theorem retry_exhaustion_identity {ε : Type} (α : Type) (type : RetryType)
    (errs : Nat → ε) (retries interval : Nat) :
    (retry type ((fun n => Except.error (errs n)) : Nat → Except ε α)
        retries interval).2 =
      Except.error (errs (orDefault retries DEFAULT_RETRIES)) := by
  rw [retry_trace_err type (fun n => Except.error (errs n)) retries interval
    (errs 0) rfl]
  exact handle_all_fail errs (orDefault retries DEFAULT_RETRIES)
    (orDefault retries DEFAULT_RETRIES) 0
    (createIntervals type (orDefault retries DEFAULT_RETRIES)
      (orDefault interval DEFAULT_INTERVAL)) (by omega) (by omega)

/-! Store lemmas: framing for reads over writes and allocations. -/

theorem length_writeRef (s : Store) (r : Ref) (v : List Nat) :
    (writeRef s r v).length = s.length := by
  simp [writeRef]

theorem readRef_writeRef_self : ∀ (s : Store) (r : Ref) (v : List Nat),
    r < s.length → readRef (writeRef s r v) r = v := by
  intro s
  induction s with
  | nil => intro r v h; simp at h
  | cons a t ih =>
    intro r v h
    cases r with
    | zero => rfl
    | succ m => exact ih m v (by simpa using h)

theorem readRef_writeRef_ne : ∀ (s : Store) (r r2 : Ref) (v : List Nat),
    ¬ r = r2 → readRef (writeRef s r v) r2 = readRef s r2 := by
  intro s
  induction s with
  | nil => intro r r2 v h; rfl
  | cons a t ih =>
    intro r r2 v h
    cases r with
    | zero =>
      cases r2 with
      | zero => exact absurd rfl h
      | succ m => rfl
    | succ n =>
      cases r2 with
      | zero => rfl
      | succ m => exact ih n m v (fun hq => h (congrArg Nat.succ hq))

theorem readRef_append_lt : ∀ (s t : Store) (r : Ref),
    r < s.length → readRef (s ++ t) r = readRef s r := by
  intro s
  induction s with
  | nil => intro t r h; simp at h
  | cons a u ih =>
    intro t r h
    cases r with
    | zero => rfl
    | succ m => exact ih t m (by simpa using h)

theorem readRef_concat_self (s : Store) (v : List Nat) :
    readRef (s ++ [v]) s.length = v := by
  induction s with
  | nil => rfl
  | cons a u ih => simpa using ih

/-- The heap-level handle computes the pure reference behaviour on the
    contents of the two context cells, for every observer: the observer
    mutations land in the freshly allocated clone cells, which are disjoint
    from the context cells. -/
theorem handleH_eq_spec {ε α : Type} (task : Nat → Except ε α) (obs : Observer) :
    ∀ (fuel : Nat) (s : Store) (c : CtxRefs) (err : ε),
    c.retriesRef < s.length → c.intervalsRef < s.length →
    ¬ c.retriesRef = c.intervalsRef →
    handleH task obs fuel s c err =
      handleSpec task fuel (readRef s c.retriesRef) (readRef s c.intervalsRef) err := by
  intro fuel
  induction fuel with
  | zero => intro s c err _ _ _; rfl
  | succ n ih =>
    intro s c err hr hi hne
    have hne2 : ¬ c.intervalsRef = c.retriesRef := fun h => hne h.symm
    simp only [handleH, handleSpec, cloneContextH, allocRef]
    set rets := readRef s c.retriesRef with hrets
    set ivs0 := readRef s c.intervalsRef with hivs0
    set done := rets.getD 0 0 with hdone
    set maxr := rets.getD 1 0 with hmaxr
    by_cases h : done < maxr
    · rw [if_pos h, if_pos h]
      set s1 := writeRef s c.retriesRef (rets.set 0 (done + 1)) with hs1
      have len1 : s1.length = s.length := length_writeRef s c.retriesRef _
      have r1 : readRef s1 c.retriesRef = rets.set 0 (done + 1) :=
        readRef_writeRef_self s c.retriesRef _ hr
      have i1 : readRef s1 c.intervalsRef = ivs0 :=
        readRef_writeRef_ne s c.retriesRef c.intervalsRef _ hne
      set sA := s1 ++ [readRef s1 c.retriesRef] with hsA
      have lenA : sA.length = s.length + 1 := by simp [hsA, len1]
      have rA : readRef sA c.retriesRef = rets.set 0 (done + 1) := by
        rw [hsA, readRef_append_lt s1 _ c.retriesRef (by rw [len1]; exact hr), r1]
      have iA : readRef sA c.intervalsRef = ivs0 := by
        rw [hsA, readRef_append_lt s1 _ c.intervalsRef (by rw [len1]; exact hi), i1]
      set sB := sA ++ [readRef sA c.intervalsRef] with hsB
      have lenB : sB.length = s.length + 2 := by simp [hsB, lenA]
      have rB : readRef sB c.retriesRef = rets.set 0 (done + 1) := by
        rw [hsB, readRef_append_lt sA _ c.retriesRef (by rw [lenA]; exact Nat.lt_succ_of_lt hr), rA]
      have iB : readRef sB c.intervalsRef = ivs0 := by
        rw [hsB, readRef_append_lt sA _ c.intervalsRef (by rw [lenA]; exact Nat.lt_succ_of_lt hi), iA]
      have snapR : readRef sB s1.length = rets.set 0 (done + 1) := by
        rw [hsB, readRef_append_lt sA _ s1.length (by rw [lenA, len1]; exact Nat.lt_succ_self _)]
        rw [hsA, r1]
        exact readRef_concat_self s1 _
      have snapI : readRef sB sA.length = ivs0 := by
        rw [hsB, iA]
        exact readRef_concat_self sA _
      set s3 := writeRef sB c.intervalsRef (readRef sB c.intervalsRef).tail with hs3
      have len3 : s3.length = s.length + 2 := by
        rw [hs3, length_writeRef, lenB]
      have r3 : readRef s3 c.retriesRef = rets.set 0 (done + 1) := by
        rw [hs3, readRef_writeRef_ne sB c.intervalsRef c.retriesRef _ hne2, rB]
      have i3 : readRef s3 c.intervalsRef = ivs0.tail := by
        rw [hs3, readRef_writeRef_self sB c.intervalsRef _ (by rw [lenB]; exact Nat.lt_succ_of_lt (Nat.lt_succ_of_lt hi)), iB]
      set w := obs done s3 { retriesRef := s1.length, intervalsRef := sA.length }
        with hw
      set s4 := writeRef (writeRef s3 s1.length w.1) sA.length w.2 with hs4
      have len4 : s4.length = s.length + 2 := by
        rw [hs4, length_writeRef, length_writeRef, len3]
      have r4 : readRef s4 c.retriesRef = rets.set 0 (done + 1) := by
        rw [hs4, readRef_writeRef_ne _ sA.length c.retriesRef _
            (ne_of_gt (show c.retriesRef < sA.length by
              rw [lenA]; exact Nat.lt_succ_of_lt hr)),
          readRef_writeRef_ne _ s1.length c.retriesRef _
            (ne_of_gt (show c.retriesRef < s1.length by
              rw [len1]; exact hr)), r3]
      have i4 : readRef s4 c.intervalsRef = ivs0.tail := by
        rw [hs4, readRef_writeRef_ne _ sA.length c.intervalsRef _
            (ne_of_gt (show c.intervalsRef < sA.length by
              rw [lenA]; exact Nat.lt_succ_of_lt hi)),
          readRef_writeRef_ne _ s1.length c.intervalsRef _
            (ne_of_gt (show c.intervalsRef < s1.length by
              rw [len1]; exact hi)), i3]
      cases htask : task (done + 1) with
      | ok v =>
        simp only [snapR, snapI, iB]
      | error e =>
        have ihc := ih s4 c e (by rw [len4]; exact Nat.lt_succ_of_lt (Nat.lt_succ_of_lt hr)) (by rw [len4]; exact Nat.lt_succ_of_lt (Nat.lt_succ_of_lt hi)) hne
        rw [r4, i4] at ihc
        simp only [snapR, snapI, iB, ihc]
    · rw [if_neg h, if_neg h]

/-- Claim C9: the engine hands the observer freshly copied cells before
    every notification, so the snapshots delivered to the observer and the
    settled result are identical for every pair of observer behaviours; in
    particular no mutation an observer performs on the context it receives
    can change the engine context or the contents of any later snapshot. -/
theorem retry_observer_noninterference {ε α : Type} (obs obs2 : Observer)
    (type : RetryType) (task : Nat → Except ε α) (retries interval : Nat) :
    retryH obs type task retries interval = retryH obs2 type task retries interval := by
  cases htask : task 0 with
  | ok v => simp [retryH, htask]
  | error e =>
    have h1 := handleH_eq_spec task obs (orDefault retries DEFAULT_RETRIES)
      [[0, orDefault retries DEFAULT_RETRIES],
        createIntervals type (orDefault retries DEFAULT_RETRIES)
          (orDefault interval DEFAULT_INTERVAL)]
      { retriesRef := 0, intervalsRef := 1 } e (by simp) (by simp) (by decide)
    have h2 := handleH_eq_spec task obs2 (orDefault retries DEFAULT_RETRIES)
      [[0, orDefault retries DEFAULT_RETRIES],
        createIntervals type (orDefault retries DEFAULT_RETRIES)
          (orDefault interval DEFAULT_INTERVAL)]
      { retriesRef := 0, intervalsRef := 1 } e (by simp) (by simp) (by decide)
    simp only [retryH, allocRef, htask]
    exact h1.trans h2.symm

end Resilience
